import Mathlib

/-!
Verification development for the nms-invoicer repository.

The embedding covers the three source files:
  * `src/src/helper.py` — the record validator `strip` and the `Datafile`
    ledger store;
  * `src/inserter.py`  — the `LatexBuilder` report assembler and compiler
    driver;
  * `src/invoicer.py`  — chat wiring, treated as an external caller.

Python machine values are modelled shallowly:
  * a CPython `float` produced by `float(s)` on a plain decimal literal is
    modelled by `PyFloat`, an exact signed decimal (sign, integer part,
    fractional digit characters with trailing zeros removed).  `str()` of
    such a value is modelled by `PyFloat.decStr`.  This models CPython in
    the regime of this program (short monetary literals, no exponent
    notation, no inf or nan, no underscores); values outside that regime
    do not arise from the ledger data the program writes.
  * file contents are lists of lines (newline-stripped, as the source
    reads them with `rstrip`).
  * exceptions are modelled by the `PyError` inductive and `Except`.
-/

/-- The exceptions that the modelled code can raise.  `inputError` is
`helper.InputError` (message, offending field key); `invalidFormat` is
`inserter.InvalidFormatError`; `notSet` is `inserter.NotSetError`;
`calledProcess` is `subprocess.CalledProcessError`; the rest are the
built-in Python exceptions that the code can let escape. -/
inductive PyError where
  | invalidFormat
  | notSet
  | keyError (k : String)
  | indexError
  | valueError
  | attributeError
  | stopIteration
  | calledProcess
  | inputError (msg field : String)
deriving DecidableEq, Repr

deriving instance DecidableEq for Except

/-! ### Character-level models of the Python string operations used.

The embedding works on `String.data` so that every operation is a
structural recursion the kernel can evaluate. -/

/-- Numeric value of a list of decimal digit characters read as a base-10
integer, as `int(s)` does on digit strings. -/
def natOfDigits (l : List Char) : Nat :=
  l.foldl (fun n c => n * 10 + (c.toNat - 48)) 0

/-- Split a character list at every occurrence of the separator, keeping
empty segments, as Python `str.split(sep)` does for a one-character
separator. -/
def splitOnCharL (sep : Char) : List Char → List (List Char)
  | [] => [[]]
  | c :: cs =>
    if c = sep then [] :: splitOnCharL sep cs
    else
      match splitOnCharL sep cs with
      | [] => [[c]]
      | p :: ps => (c :: p) :: ps

/-- Python `s.split(sep)` for a one-character separator. -/
def pySplit (sep : Char) (s : String) : List String :=
  (splitOnCharL sep s.data).map String.mk

/-- Python `s.endswith(pat)`. -/
def pyEndsWith (s pat : String) : Bool :=
  s.data.drop (s.data.length - pat.data.length) == pat.data

/-- Python `s.lower()` (ASCII regime). -/
def pyLower (s : String) : String :=
  String.mk (s.data.map Char.toLower)

/-- Python `s.replace(" ", "")`: remove every space. -/
def pyRemoveSpaces (s : String) : String :=
  String.mk (s.data.filter (fun c => c ≠ ' '))

/-- Python `s.replace(a, b)` for one-character patterns. -/
def pyReplaceChar (a b : Char) (s : String) : String :=
  String.mk (s.data.map (fun c => if c = a then b else c))

/-- `int(s)` on a plain digit group: `none` unless the group is non-empty
and all digits. -/
def digitsToNat? (l : List Char) : Option Nat :=
  if l ≠ [] ∧ l.all Char.isDigit then some (natOfDigits l) else none

/-- Remove trailing zero characters from a fractional digit run.  CPython
float conversion normalises the stored value, so `1.230` and `1.23`
convert to the same float. -/
def stripTrailingZeros (l : List Char) : List Char :=
  (l.reverse.dropWhile (fun c => c = '0')).reverse

/-- Model of a CPython float arising in this program: an exact signed
decimal.  `frac` holds the fractional digit characters with trailing
zeros removed, so `frac = []` is an integer-valued float (printed with a
single `0` fractional digit, as `str` does). -/
structure PyFloat where
  neg : Bool
  intp : Nat
  frac : List Char
deriving DecidableEq, Repr

/-- Strip a single optional leading sign character, returning the sign
and the remaining body, as the float scanner does. -/
def parseSign (l : List Char) : Bool × List Char :=
  match l with
  | [] => (false, [])
  | c :: rest =>
    if c = '-' then (true, rest)
    else if c = '+' then (false, rest)
    else (false, c :: rest)

/-- The unsigned part of `float(s)`: digits with at most one dot and at
least one digit overall. -/
def parseUnsigned? (neg : Bool) (body : List Char) : Option PyFloat :=
  match splitOnCharL '.' body with
  | [i] =>
    if i ≠ [] ∧ i.all Char.isDigit then some ⟨neg, natOfDigits i, []⟩ else none
  | [i, f] =>
    if (i ≠ [] ∨ f ≠ []) ∧ i.all Char.isDigit ∧ f.all Char.isDigit then
      some ⟨neg, natOfDigits i, stripTrailingZeros f⟩
    else none
  | _ => none

/-- Model of `float(s)` for a plain decimal literal: optional sign, then
digits with at most one dot, at least one digit overall.  Returns `none`
where CPython raises `ValueError`.  The model is exact for strings made
of ASCII digits, dots and sign characters; CPython additionally accepts
exponent notation, `inf`, `nan`, underscores and surrounding whitespace,
which are outside the modelled regime, so universal theorems about the
validator carry an explicit hypothesis restricting the cost string to
the exact regime. -/
def floatOfString? (s : String) : Option PyFloat :=
  parseUnsigned? (parseSign s.data).1 (parseSign s.data).2

/-- Model of `str()` on a float of this program: sign, integer part, dot,
then the fractional digits (`0` if the value is integral).  This is what
CPython prints for a float converted from a plain decimal with at most
fifteen significant digits whose value is zero or at least 1/10000 in
magnitude (shorter decimals round-trip through the double, and CPython
prints the shortest round-tripping form without an exponent in that
range); universal theorems that depend on the printed form carry this
range as an explicit hypothesis. -/
def PyFloat.decStr (d : PyFloat) : String :=
  (if d.neg then "-" else "") ++ toString d.intp ++ "." ++
    (if d.frac.isEmpty then "0" else String.mk d.frac)

/-- The value of a modelled float as a scaled integer: the float equals
`scaledNum / 10 ^ frac.length`. -/
def PyFloat.scaledNum (d : PyFloat) : ℤ :=
  (if d.neg then -1 else 1) *
    ((d.intp * 10 ^ d.frac.length + natOfDigits d.frac : ℕ) : ℤ)

/-- Rational value of a modelled float. -/
def PyFloat.val (d : PyFloat) : ℚ :=
  (d.scaledNum : ℚ) / 10 ^ d.frac.length

/-- Index of the first dot in a character list, if any. -/
def findDotIdx : List Char → Option Nat
  | [] => none
  | c :: cs => if c = '.' then some 0 else (findDotIdx cs).map (fun n => n + 1)

/-- Model of `s[::-1].find(".")`: index of the dot in the reversed string,
`-1` when absent, as `str.find` returns. -/
def pyFindRev (s : String) : Int :=
  match findDotIdx s.data.reverse with
  | some n => (n : Int)
  | none => -1

/-- The record produced by a successful run of `helper.strip`: the `out`
dict with `cost` converted to a float. -/
structure Stripped where
  invoice_date : String
  event_name : String
  purpose : String
  cost : PyFloat
  user : String
deriving DecidableEq, Repr

/-- Embedding of `helper.strip` (src/src/helper.py lines 14-47).  The
surrounding chat payload plumbing is modelled out: the five raw fields
arrive as arguments.  Steps in source order: capitalize the first letter
of `purpose` (an empty purpose raises IndexError), convert `cost` with
`float` (failure raises InputError), reject when the string form of the
converted value has more than two characters after the dot, then build
the record. -/
def strip (event_name invoice_date cost purpose user_id : String) :
    Except PyError Stripped :=
  match purpose.data with
  | [] => .error .indexError
  | c :: rest =>
    let purposeCap := String.mk (c.toUpper :: rest)
    match floatOfString? cost with
    | none =>
        .error (.inputError
          "Bitte Ganzzahl oder Englisches Format nutzen. Bsp: 2 oder 12.69"
          "invoice_cost")
    | some costF =>
        if pyFindRev costF.decStr > 2 then
          .error (.inputError
            "Mehr als zwei Nachkommastellen gibt es nicht amk."
            "invoice_cost")
        else
          .ok ⟨invoice_date, event_name, purposeCap, costF, user_id⟩

/-! ## Ledger store (`helper.Datafile`, src/src/helper.py lines 51-114)

The store owns one flat file per event.  A file is modelled as
`Option (List String)`: `none` when the file does not exist on disk,
`some lines` otherwise.  The external `get_events` date lookup and the
`db/` directory creation are plumbing with no bearing on the ledger
contents and are modelled out. -/

/-- Header line of a record dict: its keys joined by commas
(`",".join(d.keys())`). -/
def headerOf (d : List (String × String)) : String :=
  String.intercalate "," (d.map (fun p => p.1))

/-- Row line of a record dict: its values joined by commas
(`",".join(str(v) for v in d.values())`); values are taken already in
string form. -/
def rowOf (d : List (String × String)) : String :=
  String.intercalate "," (d.map (fun p => p.2))

/-- One append through the store as the caller performs it
(`Datafile(event)` then `store(d)`): `Datafile.__init__` records whether
the file existed (`is_new_file`) and touches an empty file if not;
`store` writes the header line first exactly when `is_new_file` held,
then the row line, both appended to the existing contents. -/
def ledgerAppend (file : Option (List String)) (d : List (String × String)) :
    List String :=
  let isNew := file.isNone
  let contents := file.getD []
  contents ++ (if isNew then [headerOf d] else []) ++ [rowOf d]

/-- A sequence of appends, each going through a fresh `Datafile` object
as `invoicer.handle_view_events` does. -/
def ledgerAppendAll (file : Option (List String))
    (ds : List (List (String × String))) : Option (List String) :=
  ds.foldl (fun f d => some (ledgerAppend f d)) file

/-! ## Report assembler (`inserter.LatexBuilder`) -/

/-- A calendar date as `datetime.strptime(d, "%Y-%m-%d")` produces it. -/
structure PyDate where
  year : Nat
  month : Nat
  day : Nat
deriving DecidableEq, Repr

def isLeap (y : Nat) : Bool :=
  (y % 4 = 0 && y % 100 ≠ 0) || y % 400 = 0

def daysInMonth (y m : Nat) : Nat :=
  if m = 2 then (if isLeap y then 29 else 28)
  else if m = 4 ∨ m = 6 ∨ m = 9 ∨ m = 11 then 30
  else 31

/-- Model of `datetime.strptime(s, "%Y-%m-%d")`: three dash-separated
digit groups (year up to four digits, month and day up to two), year at
least 1 (datetime MINYEAR), month and day in calendar range.  Returns
`none` where strptime raises ValueError. -/
def parseDate (s : String) : Option PyDate :=
  match splitOnCharL '-' s.data with
  | [ys, ms, ds] =>
    match digitsToNat? ys, digitsToNat? ms, digitsToNat? ds with
    | some y, some m, some d =>
      if ys.length ≤ 4 ∧ ms.length ≤ 2 ∧ ds.length ≤ 2 ∧ 1 ≤ y ∧
          1 ≤ m ∧ m ≤ 12 ∧ 1 ≤ d ∧ d ≤ daysInMonth y m then
        some ⟨y, m, d⟩
      else none
    | _, _, _ => none
  | _ => none

/-- Zero-pad a number to two characters, as strftime `%d` and `%m` do. -/
def pad2 (n : Nat) : String :=
  if n < 10 then "0" ++ toString n else toString n

/-- Model of `datetime.strftime(d, "%d.%m.%Y")`. -/
def fmtDate (d : PyDate) : String :=
  pad2 d.day ++ "." ++ pad2 d.month ++ "." ++ toString d.year

/-- Chronological order on dates, as datetime comparison gives it. -/
def dateLe (a b : PyDate) : Bool :=
  a.year < b.year ||
    (a.year = b.year &&
      (a.month < b.month || (a.month = b.month && a.day ≤ b.day)))

/-- The `self.data` dict of `LatexBuilder`: insertion-ordered mapping
from header field names to the column of values read for that field. -/
abbrev DataDict := List (String × List String)

/-- `{key: [] for key in header}`: one empty column per distinct header
key, first occurrence order. -/
def dictInit (header : List String) : DataDict :=
  header.foldl
    (fun acc k => if acc.any (fun p => p.1 == k) then acc else acc ++ [(k, [])])
    []

/-- `self.data[key].append(val)` for a key present in the dict. -/
def dictAppend (d : DataDict) (k : String) (v : String) : DataDict :=
  d.map (fun p => if p.1 = k then (p.1, p.2 ++ [v]) else p)

/-- Dict lookup, `none` where Python raises KeyError. -/
def dictGet? (d : DataDict) (k : String) : Option (List String) :=
  (d.find? (fun p => p.1 == k)).map (fun p => p.2)

/-- `self.data[key] = val` for a key already present. -/
def dictSet (d : DataDict) (k : String) (v : List String) : DataDict :=
  d.map (fun p => if p.1 = k then (p.1, v) else p)

/-- `for pair in zip(header, entry): key, val = pair;
self.data[key].append(val)` — `zip` truncates to the shorter sequence,
so a short row is consumed without error. -/
def zipAppend (d : DataDict) (header entry : List String) : DataDict :=
  (List.zip header entry).foldl (fun acc kv => dictAppend acc kv.1 kv.2) d

/-- `float(price)` over the cost column inside the `sum` generator:
left to right, first failure raises ValueError. -/
def parseCosts : List String → Except PyError (List PyFloat)
  | [] => .ok []
  | s :: rest =>
    match floatOfString? s with
    | none => .error .valueError
    | some d => (parseCosts rest).map (fun l => d :: l)

/-- `datetime.strptime(d, "%Y-%m-%d")` over the invoice_date column. -/
def parseDates : List String → Except PyError (List PyDate)
  | [] => .ok []
  | s :: rest =>
    match parseDate s with
    | none => .error .valueError
    | some d => (parseDates rest).map (fun l => d :: l)

/-- An exact decimal number `num / 10 ^ exp`, used to model the exact
arithmetic the program performs on its short monetary floats. -/
structure DecNum where
  num : ℤ
  exp : ℕ
deriving DecidableEq, Repr

/-- Exact addition of two decimals by rescaling to the larger exponent. -/
def addDec (a b : DecNum) : DecNum :=
  if a.exp ≤ b.exp then ⟨a.num * 10 ^ (b.exp - a.exp) + b.num, b.exp⟩
  else ⟨a.num + b.num * 10 ^ (a.exp - b.exp), a.exp⟩

/-- `sum(float(price) for price in ...)`: left fold starting at 0, exact
in the modelled regime of short decimals. -/
def sumFloats (ds : List PyFloat) : DecNum :=
  ds.foldl (fun a d => addDec a ⟨d.scaledNum, d.frac.length⟩) ⟨0, 0⟩

/-- `round(v, 2)` expressed in centi-units: the integer nearest to
`100 * v`, ties to even, as Python rounds. -/
def roundHalfEvenCenti (v : DecNum) : ℤ :=
  if v.exp ≤ 2 then v.num * 10 ^ (2 - v.exp)
  else
    let D : ℤ := 10 ^ (v.exp - 2)
    let q := Int.fdiv v.num D
    let r := Int.fmod v.num D
    if 2 * r < D then q
    else if D < 2 * r then q + 1
    else if 2 ∣ q then q else q + 1

/-- `str()` of the float `n / 100`: sign, integer part, dot, then the at
most two fractional digits with a trailing zero dropped (`17.5` rather
than `17.50`), `0` when the value is integral. -/
def strOfCenti (n : ℤ) : String :=
  let a := n.natAbs
  let i := a / 100
  let r := a % 100
  let fr :=
    if r = 0 then "0"
    else if r % 10 = 0 then toString (r / 10)
    else if r < 10 then "0" ++ toString r
    else toString (r / 10) ++ toString (r % 10)
  (if n < 0 then "-" else "") ++ toString i ++ "." ++ fr

/-- `str(round(sum(float(price) for price in costs), 2))` — Python sums
an empty generator to the int 0, so an empty cost column yields the
string `0` with no fractional part; a non-empty column yields the float
string of the rounded sum. -/
def totalString (costStrs : List String) (costFs : List PyFloat) : String :=
  if costStrs.isEmpty then "0"
  else strOfCenti (roundHalfEvenCenti (sumFloats costFs))

/-- The `LatexBuilder` object state after `__init__`.  The source reuses
`self.dates` first for datetime objects (set in `__init__`) and then for
their `%d.%m.%Y` strings (set in `sort_by_date`); the model keeps the
two incarnations in `dates` and `dates_str`. -/
structure LatexBuilder where
  data_size : Nat
  event_date : String
  is_set : Bool
  data : DataDict
  total : String
  dates : List PyDate
  dates_str : List String
  event_name : String
deriving DecidableEq, Repr

/-- Embedding of `LatexBuilder.__init__` (src/inserter.py lines 16-72),
operating on the file contents as newline-stripped lines.  In source
order: reject filenames not ending in `.data`; read header and rows into
the data dict (a zero-line file leaves `self.data` unset, so the later
attribute access raises); compute the total string from the cost column
(KeyError when the header lacks `cost`, ValueError on an unparseable
cost); parse the invoice dates; take the first `event_name` entry
(IndexError when the column is empty), lowercased with spaces removed. -/
def LatexBuilder.init (datafile event_date : String) (lines : List String) :
    Except PyError LatexBuilder :=
  if pyEndsWith datafile ".data" then
    match lines with
    | [] => .error .attributeError
    | hline :: rest =>
      let header := pySplit ',' hline
      let data :=
        rest.foldl (fun d line => zipAppend d header (pySplit ',' line)) (dictInit header)
      match dictGet? data "cost" with
      | none => .error (.keyError "cost")
      | some costStrs =>
        match parseCosts costStrs with
        | .error e => .error e
        | .ok costFs =>
          let total := totalString costStrs costFs
          match dictGet? data "invoice_date" with
          | none => .error (.keyError "invoice_date")
          | some dateStrs =>
            match parseDates dateStrs with
            | .error e => .error e
            | .ok dates =>
              match dictGet? data "event_name" with
              | none => .error (.keyError "event_name")
              | some [] => .error .indexError
              | some (n0 :: _) =>
                .ok ⟨rest.length, event_date, false, data, total, dates, [],
                  pyRemoveSpaces (pyLower n0)⟩
  else .error .invalidFormat

/-- Stable insertion of an indexed date into an already-sorted run: the
new element goes after every element less than or equal to it, so equal
dates keep their original relative order, as Python `sorted` guarantees. -/
def insertByDate (x : Nat × PyDate) : List (Nat × PyDate) → List (Nat × PyDate)
  | [] => [x]
  | y :: ys => if dateLe y.2 x.2 then y :: insertByDate x ys else x :: y :: ys

/-- `sorted(range(len(seq)), key=seq.__getitem__)`: a stable ascending
sort of the indices by their dates. -/
def argsortDates (seq : List PyDate) : List Nat :=
  (seq.enum.foldl (fun acc x => insertByDate x acc) []).map (fun p => p.1)

/-- `[val[s] for s in indices]`: IndexError when an index is out of
range for the column. -/
def permuteCol (val : List String) (idx : List Nat) :
    Except PyError (List String) :=
  match idx.mapM (fun s => val.get? s) with
  | some l => .ok l
  | none => .error .indexError

/-- Embedding of `LatexBuilder.sort_by_date` (src/inserter.py lines
74-84): argsort the datetimes, apply the permutation to every column of
the data dict, then overwrite `self.dates` with the `%d.%m.%Y` strings
of the datetimes — the comprehension iterates the unpermuted `self.dates`,
so the display strings stay in original file order. -/
def LatexBuilder.sort_by_date (b : LatexBuilder) :
    Except PyError LatexBuilder :=
  let indices := argsortDates b.dates
  match b.data.mapM (fun p => (permuteCol p.2 indices).map (fun l => (p.1, l))) with
  | .error e => .error e
  | .ok newData =>
    .ok ⟨b.data_size, b.event_date, b.is_set, newData, b.total, b.dates,
      b.dates.map fmtDate, b.event_name⟩

/-- The padding test and action applied to one price string:
`if price.endswith(".0"): price += "0"`. -/
def padPrice (s : String) : String :=
  if pyEndsWith s ".0" then s ++ "0" else s

/-- Embedding of `LatexBuilder.pad_prices` (src/inserter.py lines
86-100): append the total to the cost column, pad every entry ending in
`.0` with one zero, take the padded total back off the end. -/
def LatexBuilder.pad_prices (b : LatexBuilder) : Except PyError LatexBuilder :=
  match dictGet? b.data "cost" with
  | none => .error (.keyError "cost")
  | some costs =>
    let padded := (costs ++ [b.total]).map padPrice
    .ok ⟨b.data_size, b.event_date, b.is_set,
      dictSet b.data "cost" padded.dropLast, padded.getLastD "",
      b.dates, b.dates_str, b.event_name⟩

/-- `LatexBuilder.build_list_entry` (src/inserter.py lines 185-187). -/
def build_list_entry (purpose date price : String) : String :=
  purpose ++ "&" ++ date ++ "&\\amount\x7b" ++ price ++ "\x7d\\\\"

/-- Python `str.capitalize`: first character uppercased, the rest
lowercased. -/
def pyCapitalize (s : String) : String :=
  match s.data with
  | [] => ""
  | c :: rest => String.mk (c.toUpper :: rest.map Char.toLower)

/-- The four presentation fragment files written by `set`: the table-row
listing (`tableitems.tex`, one line per emitted row), the event name
label, the event date label and the total label. -/
structure Fragments where
  tableitems : List String
  eventname : String
  eventdate : String
  total : String
deriving DecidableEq, Repr

/-- Embedding of `LatexBuilder.set` (src/inserter.py lines 102-135):
sort, pad, then emit one table line per `data_size` from the zip of the
purpose, invoice_date and cost columns (a zip shorter than `data_size`
raises StopIteration at the `next` call), write the event name (first
underscore token, capitalized), the caller-supplied event date and the
total wrapped in the amount marker; finally flip `is_set`. -/
def LatexBuilder.set (b : LatexBuilder) :
    Except PyError (LatexBuilder × Fragments) :=
  match b.sort_by_date with
  | .error e => .error e
  | .ok b1 =>
    match b1.pad_prices with
    | .error e => .error e
    | .ok b2 =>
      match dictGet? b2.data "purpose", dictGet? b2.data "invoice_date",
          dictGet? b2.data "cost" with
      | some purposes, some dateCol, some costCol =>
        let rows := List.zip purposes (List.zip dateCol costCol)
        if b2.data_size ≤ rows.length then
          let emitted := (rows.take b2.data_size).map
            (fun r => build_list_entry r.1 r.2.1 r.2.2)
          .ok (⟨b2.data_size, b2.event_date, true, b2.data, b2.total,
              b2.dates, b2.dates_str, b2.event_name⟩,
            ⟨emitted,
              pyCapitalize ((pySplit '_' b2.event_name).headD ""),
              b2.event_date,
              "\\amount\x7b" ++ b2.total ++ "\x7d"⟩)
        else .error .stopIteration
      | _, _, _ => .error (.keyError "purpose")

/-! ## Compiler driver (`inserter.LatexBuilder.compile`) -/

/-- The external environment `compile` probes: which of the two tools
`which` finds, the exit status each would return, and whether the output
directory already exists. -/
structure CompileEnv where
  tectonic_found : Bool
  pdflatex_found : Bool
  tectonic_exit : Nat
  pdflatex_exit : Nat
  out_dir_exists : Bool
deriving DecidableEq, Repr

/-- The file-system effects `compile` can perform, in order. -/
inductive FsAction where
  | mkdirOut
  | makedirsJobDir (path : String)
  | runTectonic (outdir : String)
  | runPdflatex (jobname : String)
  | deleteFilesWithExt (ext : String)
deriving DecidableEq, Repr

/-- Result of a `compile` call: the actions performed, and the exception
that interrupted them if one was raised. -/
inductive CompileOutcome where
  | ok (acts : List FsAction)
  | err (e : PyError) (acts : List FsAction)
deriving DecidableEq, Repr

/-- Embedding of `LatexBuilder.compile` (src/inserter.py lines 137-181):
refuse with NotSetError before touching the file system when `is_set` is
false; otherwise create `./out/` if absent, pick tectonic first and
pdflatex second (silently doing neither when both probes fail), let a
non-zero exit surface as CalledProcessError, and only after a successful
(or absent) invocation delete the aux, log, out and gz byproducts unless
`debug` is set. -/
def LatexBuilder.compile (b : LatexBuilder) (debug : Bool)
    (env : CompileEnv) : CompileOutcome :=
  if b.is_set then
    let acts0 : List FsAction :=
      if env.out_dir_exists then [] else [.mkdirOut]
    let jobname := pyReplaceChar '_' '-' b.event_name
    let cleanup : List FsAction → CompileOutcome := fun acts =>
      if debug then .ok acts
      else .ok (acts ++ (["aux", "log", "out", "gz"].map .deleteFilesWithExt))
    if env.tectonic_found then
      let out := "./out/" ++ jobname
      let acts1 := acts0 ++ [.makedirsJobDir out, .runTectonic out]
      if env.tectonic_exit ≠ 0 then .err .calledProcess acts1 else cleanup acts1
    else if env.pdflatex_found then
      let acts1 := acts0 ++ [.runPdflatex jobname]
      if env.pdflatex_exit ≠ 0 then .err .calledProcess acts1 else cleanup acts1
    else cleanup acts0
  else .err .notSet []

/-- The header line the store writes for a validated record: the keys of
the `out` dict of `strip`, in insertion order. -/
def stdHeader : String := "invoice_date,event_name,purpose,cost,user"

/-- A modelled float is negative exactly when its scaled numerator is. -/
theorem PyFloat.val_neg_iff (d : PyFloat) : d.val < 0 ↔ d.scaledNum < 0 := by
  unfold PyFloat.val
  have h10 : (0 : ℚ) < 10 ^ d.frac.length := by positivity
  rw [div_neg_iff]
  constructor
  · rintro (⟨_, hb⟩ | ⟨ha, _⟩)
    · exact absurd hb (not_lt.mpr h10.le)
    · exact_mod_cast ha
  · intro h
    exact Or.inr ⟨by exact_mod_cast h, h10⟩

/-- Appending to an already-existing ledger file only adds row lines. -/
theorem ledgerAppendAll_some (lines : List String)
    (es : List (List (String × String))) :
    ledgerAppendAll (some lines) es = some (lines ++ es.map rowOf) := by
  induction es generalizing lines with
  | nil => simp [ledgerAppendAll]
  | cons e es ih =>
    have h1 : ledgerAppendAll (some lines) (e :: es) =
        ledgerAppendAll (some (ledgerAppend (some lines) e)) es := rfl
    rw [h1, ih]
    simp [ledgerAppend]

/-! ## Claim theorems -/

/-- C1: evaluation of load followed by assemble on the dataset dated
2024-03-01, 2024-01-15, 2024-02-20.  The emitted table rows are in
ascending invoice-date order, but each row shows its date still in the
machine-sortable YYYY-MM-DD form: the zero-padded day.month.year strings
are computed into the reused dates attribute (unpermuted, hence not even
sorted) and never emitted. -/
theorem assemble_emits_unreformatted_dates :
    ((LatexBuilder.init "db/sommerfest.data" "05.03.2024"
        [stdHeader,
         "2024-03-01,sommer fest,snacks,3.0,U1",
         "2024-01-15,sommer fest,drinks,2.0,U2",
         "2024-02-20,sommer fest,food,4.0,U3"]).bind LatexBuilder.set).map
      (fun r => (r.2.tableitems, r.1.dates_str)) =
    .ok (["drinks&2024-01-15&\\amount\x7b2.00\x7d\\\\",
          "food&2024-02-20&\\amount\x7b4.00\x7d\\\\",
          "snacks&2024-03-01&\\amount\x7b3.00\x7d\\\\"],
         ["01.03.2024", "15.01.2024", "20.02.2024"]) := by
  decide

/-- C2 counterexample: loading a ledger that contains only the header
line does not reach assemble at all — constructing the builder fails
with IndexError while taking the first entry of the empty event_name
column. -/
theorem load_header_only_fails :
    LatexBuilder.init "db/leer.data" "01.01.2024" [stdHeader] =
      .error .indexError := by
  decide

/-- C2 amended: on a header-only ledger the builder construction fails
with IndexError (empty event_name column) for every event date, so the
empty dataset is not valid; and the total string computed for an empty
cost column is the integer string 0, not 0.00. -/
theorem load_header_only_indexError :
    (∀ ed : String,
      LatexBuilder.init "db/leer.data" ed [stdHeader] = .error .indexError)
    ∧ totalString [] [] = "0" :=
  ⟨fun _ => rfl, rfl⟩

/-- C4: appending N records through the store, starting from a ledger
file that does not yet exist, yields exactly one header line (derived
from the first record, written only on the first append) followed by the
N row lines in append order; and appending any further records to an
existing file adds row lines only, never a second header. -/
theorem ledger_header_once (d : List (String × String))
    (ds : List (List (String × String))) :
    ledgerAppendAll none (d :: ds) =
      some (headerOf d :: (d :: ds).map rowOf)
    ∧ ∀ (lines : List String) (es : List (List (String × String))),
        ledgerAppendAll (some lines) es = some (lines ++ es.map rowOf) := by
  constructor
  · have h1 : ledgerAppendAll none (d :: ds) =
        ledgerAppendAll (some (ledgerAppend none d)) ds := rfl
    rw [h1, ledgerAppendAll_some]
    simp [ledgerAppend, headerOf, rowOf]
  · exact ledgerAppendAll_some

/-- C6 counterexample: the validator accepts the cost field -5 — the
parse succeeds, the two-decimal check passes, and the produced record
carries the negative cost value -5, so validate can return a record with
negative cost. -/
theorem strip_accepts_negative_cost :
    strip "e" "2024-01-01" "-5" "kuchen" "U1" =
      .ok ⟨"2024-01-01", "e", "Kuchen", ⟨true, 5, []⟩, "U1"⟩
    ∧ (⟨true, 5, []⟩ : PyFloat).val < 0 :=
  ⟨by decide, (PyFloat.val_neg_iff _).mpr (by decide)⟩

/-- C6 amended: validate performs no sign check on the cost: for every
field set with a non-empty purpose, the cost string -12.50 is accepted
and the returned record has a negative cost value. -/
theorem strip_no_sign_check (en inv p u : String) (hp : p ≠ "") :
    ∃ r, strip en inv "-12.50" p u = .ok r ∧ r.cost.val < 0 := by
  obtain ⟨l⟩ := p
  cases l with
  | nil => exact absurd rfl hp
  | cons c rest =>
    refine ⟨_, rfl, (PyFloat.val_neg_iff _).mpr ?_⟩
    show (⟨true, 12, ['5']⟩ : PyFloat).scaledNum < 0
    decide

/-- C6 witness: the amended theorem applied at a concrete field set. -/
theorem strip_no_sign_check_witness :
    ∃ r, strip "e" "2024-01-01" "-12.50" "kuchen" "U2" = .ok r ∧
      r.cost.val < 0 :=
  strip_no_sign_check "e" "2024-01-01" "kuchen" "U2" (by decide)

/-- C7 counterexample: for the ledger with costs 10.0, 5.5 and 2 the
total before padding is the string 17.5; after padding the displayed
costs are 10.00, 5.5 and 2 and the displayed total is 17.5 — not the
5.50 and 17.50 the claim states, since neither 5.5 nor 17.5 ends in .0. -/
theorem pad_prices_displays_actual :
    (LatexBuilder.init "db/kasse.data" "12.01.2024"
        [stdHeader,
         "2024-01-10,kasse,brot,10.0,U1",
         "2024-01-11,kasse,milch,5.5,U2",
         "2024-01-12,kasse,salz,2,U3"]).map
      (fun b => (b.total, b.pad_prices.map
        (fun b2 => (dictGet? b2.data "cost", b2.total)))) =
      .ok ("17.5", .ok (some ["10.00", "5.5", "2"], "17.5"))
    ∧ ¬ ((LatexBuilder.init "db/kasse.data" "12.01.2024"
        [stdHeader,
         "2024-01-10,kasse,brot,10.0,U1",
         "2024-01-11,kasse,milch,5.5,U2",
         "2024-01-12,kasse,salz,2,U3"]).map
      (fun b => b.pad_prices.map
        (fun b2 => (dictGet? b2.data "cost", b2.total))) =
      .ok (.ok (some ["10.00", "5.50", "2"], "17.50"))) := by
  constructor <;> decide

/-- C9: calling compile before the fragments have been assembled fails
with NotSetError and performs no file-system action at all: no directory
creation, no compiler invocation, no deletion. -/
theorem compile_unset_no_actions (b : LatexBuilder) (debug : Bool)
    (env : CompileEnv) (h : b.is_set = false) :
    b.compile debug env = .err .notSet [] := by
  simp [LatexBuilder.compile, h]

/-- C9 witness: the theorem applied to a concrete unset builder. -/
theorem compile_unset_no_actions_witness :
    LatexBuilder.compile ⟨0, "", false, [], "", [], [], "x"⟩ false
      ⟨true, true, 0, 0, false⟩ = .err .notSet [] :=
  compile_unset_no_actions _ _ _ rfl

/-- C8: whenever the chosen external compiler exits non-zero — tectonic
when it is found, else pdflatex when found — compile raises
CalledProcessError and the performed actions contain no deletion of
intermediate files: cleanup is skipped on compiler failure. -/
theorem compile_failure_skips_cleanup (b : LatexBuilder) (debug : Bool)
    (env : CompileEnv) (hset : b.is_set = true)
    (hfail : (env.tectonic_found = true ∧ env.tectonic_exit ≠ 0) ∨
      (env.tectonic_found = false ∧ env.pdflatex_found = true ∧
        env.pdflatex_exit ≠ 0)) :
    ∃ acts, b.compile debug env = .err .calledProcess acts ∧
      ∀ e, FsAction.deleteFilesWithExt e ∉ acts := by
  rcases hfail with ⟨ht, hx⟩ | ⟨ht, hp, hx⟩
  · refine ⟨(if env.out_dir_exists then [] else [.mkdirOut]) ++
      [.makedirsJobDir ("./out/" ++ pyReplaceChar '_' '-' b.event_name),
       .runTectonic ("./out/" ++ pyReplaceChar '_' '-' b.event_name)], ?_, ?_⟩
    · simp [LatexBuilder.compile, hset, ht, hx]
    · intro e
      cases henv : env.out_dir_exists <;> simp [henv]
  · refine ⟨(if env.out_dir_exists then [] else [.mkdirOut]) ++
      [.runPdflatex (pyReplaceChar '_' '-' b.event_name)], ?_, ?_⟩
    · simp [LatexBuilder.compile, hset, ht, hp, hx]
    · intro e
      cases henv : env.out_dir_exists <;> simp [henv]

/-- C8 witness: the theorem applied to a concrete assembled builder and
an environment where tectonic is found and exits 1. -/
theorem compile_failure_skips_cleanup_witness :
    ∃ acts, LatexBuilder.compile ⟨0, "", true, [], "", [], [], "x_y"⟩ false
      ⟨true, false, 1, 0, false⟩ = .err .calledProcess acts ∧
      ∀ e, FsAction.deleteFilesWithExt e ∉ acts :=
  compile_failure_skips_cleanup _ _ _ rfl (Or.inl ⟨rfl, by decide⟩)

/-- C10: a raw field set whose purpose is the empty string makes the
validator raise IndexError at the capitalization step — before the cost
is even examined — and in particular not an InputError, so a non-empty
purpose is an implicit precondition. -/
theorem strip_empty_purpose_indexError (en inv cost u : String) :
    strip en inv cost "" u = .error .indexError
    ∧ ∀ m f : String, strip en inv cost "" u ≠ .error (.inputError m f) := by
  refine ⟨rfl, fun m f h => ?_⟩
  simp [strip] at h

theorem splitOnCharL_ne_nil (sep : Char) (l : List Char) :
    splitOnCharL sep l ≠ [] := by
  induction l with
  | nil => simp [splitOnCharL]
  | cons c cs ih =>
    unfold splitOnCharL
    by_cases hc : c = sep
    · simp [hc]
    · simp only [if_neg hc]
      cases h : splitOnCharL sep cs with
      | nil => simp
      | cons p ps => simp

theorem splitOnCharL_eq_one (sep : Char) (l i : List Char)
    (h : splitOnCharL sep l = [i]) : l = i ∧ sep ∉ i := by
  induction l generalizing i with
  | nil =>
    simp [splitOnCharL] at h
    subst h
    simp
  | cons c cs ih =>
    unfold splitOnCharL at h
    by_cases hc : c = sep
    · rw [if_pos hc] at h
      injection h with h1 h2
      exact absurd h2 (splitOnCharL_ne_nil sep cs)
    · rw [if_neg hc] at h
      cases hs : splitOnCharL sep cs with
      | nil => exact absurd hs (splitOnCharL_ne_nil sep cs)
      | cons p ps =>
        rw [hs] at h
        injection h with h1 h2
        subst h2
        obtain ⟨hcs, hmem⟩ := ih p hs
        subst hcs
        refine ⟨h1.symm ▸ rfl, ?_⟩
        rw [← h1]
        simp only [List.mem_cons, not_or]
        exact ⟨fun he => hc he.symm, hmem⟩

theorem splitOnCharL_eq_two (sep : Char) (l i f : List Char)
    (h : splitOnCharL sep l = [i, f]) :
    l = i ++ sep :: f ∧ sep ∉ i ∧ sep ∉ f := by
  induction l generalizing i with
  | nil =>
    simp [splitOnCharL] at h
  | cons c cs ih =>
    unfold splitOnCharL at h
    by_cases hc : c = sep
    · rw [if_pos hc] at h
      injection h with h1 h2
      obtain ⟨hcs, hmem⟩ := splitOnCharL_eq_one sep cs f h2
      subst hcs
      subst hc
      refine ⟨by rw [← h1]; rfl, ?_, hmem⟩
      rw [← h1]
      simp
    · rw [if_neg hc] at h
      cases hs : splitOnCharL sep cs with
      | nil => exact absurd hs (splitOnCharL_ne_nil sep cs)
      | cons p ps =>
        rw [hs] at h
        injection h with h1 h2
        obtain ⟨hcs, hpi, hpf⟩ := ih p (by rw [hs, h2])
        subst hcs
        refine ⟨by rw [← h1]; rfl, ?_, hpf⟩
        rw [← h1]
        simp only [List.mem_cons, not_or]
        exact ⟨fun he => hc he.symm, hpi⟩

theorem splitOnCharL_cons (sep c : Char) (cs : List Char) :
    splitOnCharL sep (c :: cs) =
      if c = sep then [] :: splitOnCharL sep cs
      else
        match splitOnCharL sep cs with
        | [] => [[c]]
        | p :: ps => (c :: p) :: ps := rfl

theorem splitOnCharL_no_sep (sep : Char) (l : List Char) (h : sep ∉ l) :
    splitOnCharL sep l = [l] := by
  induction l with
  | nil => rfl
  | cons c cs ih =>
    simp only [List.mem_cons, not_or] at h
    rw [splitOnCharL_cons, if_neg (fun he => h.1 he.symm), ih h.2]

theorem splitOnCharL_sep_append (sep : Char) (l r : List Char) (h : sep ∉ l) :
    splitOnCharL sep (l ++ sep :: r) = l :: splitOnCharL sep r := by
  induction l with
  | nil => simp [splitOnCharL]
  | cons c cs ih =>
    simp only [List.mem_cons, not_or] at h
    rw [List.cons_append, splitOnCharL_cons, if_neg (fun he => h.1 he.symm),
      ih h.2]

theorem findDotIdx_append (l r : List Char) (h : '.' ∉ l) :
    findDotIdx (l ++ '.' :: r) = some l.length := by
  induction l with
  | nil => simp [findDotIdx]
  | cons c cs ih =>
    simp only [List.mem_cons, not_or] at h
    rw [List.cons_append]
    unfold findDotIdx
    rw [if_neg (fun he => h.1 he.symm), ih h.2]
    rfl

theorem stripTrailingZeros_subset (l : List Char) (c : Char)
    (h : c ∈ stripTrailingZeros l) : c ∈ l := by
  unfold stripTrailingZeros at h
  rw [List.mem_reverse] at h
  rw [← List.mem_reverse]
  exact (List.dropWhile_sublist _).mem h

theorem str_data_append (a b : String) : (a ++ b).data = a.data ++ b.data := rfl

theorem parseSign_append (l : List Char) (x : Char) (h : l ≠ []) :
    parseSign (l ++ [x]) = ((parseSign l).1, (parseSign l).2 ++ [x]) := by
  cases l with
  | nil => exact absurd rfl h
  | cons c cs =>
    rw [List.cons_append]
    unfold parseSign
    by_cases h1 : c = '-'
    · simp [h1]
    · by_cases h2 : c = '+' <;> simp [h1, h2]

theorem parseSign_snd_ends (l t : List Char) (h : l = t ++ ['.', '0']) :
    ∃ t2, (parseSign l).2 = t2 ++ ['.', '0'] := by
  subst h
  cases t with
  | nil => exact ⟨[], rfl⟩
  | cons c t2 =>
    rw [List.cons_append]
    unfold parseSign
    by_cases h1 : c = '-'
    · exact ⟨t2, by simp [h1]⟩
    · by_cases h2 : c = '+'
      · exact ⟨t2, by simp [h1, h2]⟩
      · exact ⟨c :: t2, by simp [h1, h2]⟩

theorem parseUnsigned?_frac_digits (neg : Bool) (body : List Char)
    (d : PyFloat) (h : parseUnsigned? neg body = some d) :
    ∀ c ∈ d.frac, c.isDigit := by
  unfold parseUnsigned? at h
  split at h
  · split at h
    · injection h with h1
      subst h1
      simp
    · exact absurd h (by simp)
  case _ i f _ =>
    split at h
    case isTrue hg =>
      injection h with h1
      subst h1
      intro c hc
      have := stripTrailingZeros_subset f c hc
      exact List.all_eq_true.mp hg.2.2 c this
    case isFalse => exact absurd h (by simp)
  · exact absurd h (by simp)

theorem floatOfString?_frac_digits (s : String) (d : PyFloat)
    (h : floatOfString? s = some d) : ∀ c ∈ d.frac, c.isDigit :=
  parseUnsigned?_frac_digits _ _ d h

theorem pyFindRev_decStr (d : PyFloat) (hd : ∀ c ∈ d.frac, c.isDigit) :
    pyFindRev d.decStr = if d.frac.isEmpty then 1 else (d.frac.length : Int) := by
  have htail : ((if d.frac.isEmpty then "0" else String.mk d.frac) : String).data
      = if d.frac.isEmpty then ['0'] else d.frac := by
    by_cases h : d.frac.isEmpty <;> simp [h]
  have hnotin : '.' ∉ (if d.frac.isEmpty then ['0'] else d.frac) := by
    by_cases h : d.frac.isEmpty
    · simp [h]
    · simp only [if_neg h]
      intro hc
      exact absurd (hd '.' hc) (by decide)
  have hdata : d.decStr.data =
      ((if d.neg then "-" else "") ++ toString d.intp).data ++
        '.' :: (if d.frac.isEmpty then ['0'] else d.frac) := by
    unfold PyFloat.decStr
    rw [str_data_append, str_data_append, htail]
    simp [List.append_assoc]
  unfold pyFindRev
  rw [hdata, List.reverse_append, List.reverse_cons, List.append_assoc,
    List.singleton_append,
    findDotIdx_append _ _ (by rw [List.mem_reverse]; exact hnotin),
    List.length_reverse]
  by_cases h : d.frac.isEmpty <;> simp [h]

/-- In-model characterisation of the cost check of `strip`: for a
non-empty purpose, the validator errors on the cost field exactly when
the modelled float conversion fails or the converted value has more than
two canonical fractional digits.  This lemma is about the embedded
parser on its whole domain; the claim theorem below restricts it to the
regime where the parser is exact for CPython. -/
theorem strip_cost_check_model (en inv cost p u : String) (hp : p ≠ "") :
    (∃ m, strip en inv cost p u = .error (.inputError m "invoice_cost")) ↔
      (floatOfString? cost = none ∨
        ∃ d, floatOfString? cost = some d ∧ 2 < d.frac.length) := by
  obtain ⟨l⟩ := p
  cases l with
  | nil => exact absurd rfl hp
  | cons c rest =>
    cases hf : floatOfString? cost with
    | none =>
      constructor
      · intro _
        exact Or.inl rfl
      · intro _
        exact ⟨"Bitte Ganzzahl oder Englisches Format nutzen. Bsp: 2 oder 12.69",
          by simp [strip, hf]⟩
    | some d =>
      have hfind := pyFindRev_decStr d (floatOfString?_frac_digits cost d hf)
      by_cases h2 : 2 < d.frac.length
      · have hne : d.frac.isEmpty = false := by
          cases hfe : d.frac with
          | nil => rw [hfe] at h2; simp at h2
          | cons a as => rfl
        have hcond : pyFindRev d.decStr > 2 := by
          rw [hfind, if_neg (by rw [hne]; simp)]
          exact_mod_cast h2
        constructor
        · intro _
          exact Or.inr ⟨d, rfl, h2⟩
        · intro _
          exact ⟨"Mehr als zwei Nachkommastellen gibt es nicht amk.",
            by simp [strip, hf, hcond]⟩
      · have hcond : ¬ pyFindRev d.decStr > 2 := by
          rw [hfind]
          by_cases hfe : d.frac.isEmpty
          · rw [if_pos hfe]
            norm_num
          · rw [if_neg hfe]
            have := not_lt.mp h2
            exact not_lt.mpr (by exact_mod_cast this)
        constructor
        · rintro ⟨m, hm⟩
          simp [strip, hf, hcond] at hm
        · rintro (hnone | ⟨d2, hd2, h22⟩)
          · exact absurd hnone (by simp)
          · rw [Option.some.injEq] at hd2
            subst hd2
            exact absurd h22 h2

/-- C5 amended: the two-decimal check runs on the string form of the
converted float, not on the raw text.  For every non-empty purpose,
validate fails with a ValidationError addressing the cost field on cost
abc and on cost 1.234; and for every cost field written with ASCII
digits, dots and sign characters whose parsed value has at most fifteen
significant digits and is zero or at least 1/10000 in magnitude — the
regime in which the embedded float conversion and printing coincide
with CPython; forms such as nan, inf, exponent notation, whitespace or
underscores lie outside it — validate fails with a ValidationError
addressing the cost field exactly when the field does not parse as a
decimal or the parsed value has more than two fractional digits in
canonical trailing-zero-free form.  A raw field with more than two
written fractional digits whose value prints with at most two, such as
1.230, is therefore accepted. -/
theorem strip_cost_validation :
    (∀ (en inv p u : String), p ≠ "" →
      ∃ m, strip en inv "abc" p u = .error (.inputError m "invoice_cost"))
    ∧ (∀ (en inv p u : String), p ≠ "" →
      ∃ m, strip en inv "1.234" p u = .error (.inputError m "invoice_cost"))
    ∧ ∀ (en inv cost p u : String), p ≠ "" →
        cost.data.all (fun c => c.isDigit || c = '.' || c = '-' || c = '+') →
        (∀ d, floatOfString? cost = some d →
          d.scaledNum.natAbs < 10 ^ 15 ∧
          (d.scaledNum = 0 ∨ 10 ^ d.frac.length ≤ d.scaledNum.natAbs * 10 ^ 4)) →
        ((∃ m, strip en inv cost p u = .error (.inputError m "invoice_cost")) ↔
          (floatOfString? cost = none ∨
            ∃ d, floatOfString? cost = some d ∧ 2 < d.frac.length)) := by
  refine ⟨?_, ?_, ?_⟩
  · intro en inv p u hp
    exact (strip_cost_check_model en inv "abc" p u hp).mpr (Or.inl rfl)
  · intro en inv p u hp
    exact (strip_cost_check_model en inv "1.234" p u hp).mpr
      (Or.inr ⟨⟨false, 1, ['2', '3', '4']⟩, rfl, by decide⟩)
  · intro en inv cost p u hp _ _
    exact strip_cost_check_model en inv cost p u hp

theorem pyEndsWith_dot_zero (s : String) (h : pyEndsWith s ".0" = true) :
    ∃ t, s.data = t ++ ['.', '0'] := by
  unfold pyEndsWith at h
  have he : s.data.drop (s.data.length - 2) = ['.', '0'] := eq_of_beq h
  refine ⟨s.data.take (s.data.length - 2), ?_⟩
  conv_lhs => rw [← List.take_append_drop (s.data.length - 2) s.data]
  rw [he]

theorem ends_dot_zero_single (i f t : List Char) (hne : '.' ∉ f)
    (hb : i ++ '.' :: f = t ++ ['.', '0']) : f = ['0'] := by
  have hrev := congrArg List.reverse hb
  rw [List.reverse_append, List.reverse_cons, List.reverse_append,
    List.append_assoc, List.singleton_append] at hrev
  have hrhs : (['.', '0'] : List Char).reverse = ['0', '.'] := rfl
  rw [hrhs] at hrev
  cases hfr : f.reverse with
  | nil =>
    rw [hfr] at hrev
    simp at hrev
  | cons a as =>
    rw [hfr] at hrev
    rw [List.cons_append] at hrev
    injection hrev with h1 h2
    cases as with
    | nil =>
      have : f = ['0'] := by
        have := congrArg List.reverse hfr
        rw [List.reverse_reverse] at this
        rw [this, h1]
        rfl
      exact this
    | cons b bs =>
      rw [List.cons_append] at h2
      injection h2 with h3 h4
      exfalso
      apply hne
      rw [← List.mem_reverse, hfr]
      rw [h3]
      simp

theorem parseUnsigned?_append_zero (neg : Bool) (body t : List Char)
    (d : PyFloat) (hb : body = t ++ ['.', '0'])
    (h : parseUnsigned? neg body = some d) :
    parseUnsigned? neg (body ++ ['0']) = some d := by
  unfold parseUnsigned? at h
  split at h
  next i heq =>
    obtain ⟨hbody, hnot⟩ := splitOnCharL_eq_one '.' body i heq
    exfalso
    apply hnot
    rw [← hbody, hb]
    simp
  next i f heq =>
    obtain ⟨hbody, hni, hnf⟩ := splitOnCharL_eq_two '.' body i f heq
    have hf0 : f = ['0'] := ends_dot_zero_single i f t hnf (hbody.symm.trans hb)
    split at h
    next hg =>
      injection h with hval
      subst hf0
      unfold parseUnsigned?
      rw [hbody, List.append_assoc, List.cons_append,
        splitOnCharL_sep_append '.' i _ hni,
        splitOnCharL_no_sep '.' (['0'] ++ ['0']) (by decide)]
      show (if (i ≠ [] ∨ (['0', '0'] : List Char) ≠ []) ∧ i.all Char.isDigit ∧
          (['0', '0'] : List Char).all Char.isDigit then
            some (⟨neg, natOfDigits i, stripTrailingZeros ['0', '0']⟩ : PyFloat)
          else none) = some d
      rw [if_pos ⟨Or.inr (by simp), hg.2.1, by decide⟩]
      rw [← hval]
      rfl
    next => exact absurd h (by simp)
  next => exact absurd h (by simp)

theorem floatOfString?_padPrice (s : String) (d : PyFloat)
    (h : floatOfString? s = some d) : floatOfString? (padPrice s) = some d := by
  unfold padPrice
  cases he : pyEndsWith s ".0" with
  | false => simpa using h
  | true =>
    show floatOfString? (s ++ "0") = some d
    obtain ⟨t, ht⟩ := pyEndsWith_dot_zero s he
    obtain ⟨t2, ht2⟩ := parseSign_snd_ends s.data t ht
    unfold floatOfString? at h ⊢
    have h0 : ("0" : String).data = ['0'] := rfl
    rw [str_data_append, h0]
    have hne : s.data ≠ [] := by
      rw [ht]
      simp
    rw [parseSign_append s.data '0' hne]
    exact parseUnsigned?_append_zero _ _ t2 d ht2 h

/-- C5 counterexample: the raw cost field 1.230 has three fractional
digits (the segment after the dot has length 3), yet validate succeeds
and returns a record, because float conversion drops the trailing zero
before the two-decimal check runs. -/
theorem strip_accepts_three_decimal_raw :
    ((splitOnCharL '.' "1.230".data).getLastD []).length = 3
    ∧ strip "e" "2024-01-01" "1.230" "kuchen" "U07" =
        .ok ⟨"2024-01-01", "e", "Kuchen", ⟨false, 1, ['2', '3']⟩, "U07"⟩ := by
  constructor <;> decide

/-- C5 witness: the amended theorem applied at the two field sets the
claim names, cost abc and cost 1.234 (both fail addressing the cost
field), and at cost 1.230, which lies in the exact regime and for which
the characterisation yields that no cost-field error is raised. -/
theorem strip_cost_validation_witness :
    (∃ m, strip "e" "2024-01-01" "abc" "kuchen" "U1" =
      .error (.inputError m "invoice_cost"))
    ∧ (∃ m, strip "e" "2024-01-01" "1.234" "kuchen" "U1" =
      .error (.inputError m "invoice_cost"))
    ∧ ¬ ∃ m, strip "e" "2024-01-01" "1.230" "kuchen" "U1" =
      .error (.inputError m "invoice_cost") :=
  ⟨strip_cost_validation.1 "e" "2024-01-01" "kuchen" "U1" (by decide),
   strip_cost_validation.2.1 "e" "2024-01-01" "kuchen" "U1" (by decide),
   fun hl =>
    have hr := (strip_cost_validation.2.2 "e" "2024-01-01" "1.230" "kuchen"
      "U1" (by decide) (by decide)
      (fun d hd => by
        have hparse : floatOfString? "1.230" =
            some ⟨false, 1, ['2', '3']⟩ := by decide
        rw [hparse, Option.some.injEq] at hd
        subst hd
        exact ⟨by decide, Or.inr (by decide)⟩)).mp hl
    by
      rcases hr with hnone | ⟨d, hd, h2⟩
      · exact absurd hnone (by decide)
      · have hparse : floatOfString? "1.230" =
            some ⟨false, 1, ['2', '3']⟩ := by decide
        rw [hparse, Option.some.injEq] at hd
        subst hd
        exact absurd h2 (by decide)⟩

/-- C7 amended: price padding appends a trailing zero exactly to the
cost strings ending in .0 (the aggregate total is processed as one more
row), leaves every other string unchanged, and never changes the parsed
numeric value of a cost string.  For costs 10.0, 5.5 and 2 the total
before padding is 17.5 and the displays after padding are 10.00, 5.5
and 2, with the total displaying as 17.5. -/
theorem pad_prices_amended :
    (LatexBuilder.init "db/kasse.data" "12.01.2024"
        [stdHeader,
         "2024-01-10,kasse,brot,10.0,U1",
         "2024-01-11,kasse,milch,5.5,U2",
         "2024-01-12,kasse,salz,2,U3"]).map
      (fun b => (b.total, b.pad_prices.map
        (fun b2 => (dictGet? b2.data "cost", b2.total)))) =
      .ok ("17.5", .ok (some ["10.00", "5.5", "2"], "17.5"))
    ∧ (∀ s : String, pyEndsWith s ".0" = false → padPrice s = s)
    ∧ ∀ (s : String) (d : PyFloat), floatOfString? s = some d →
        floatOfString? (padPrice s) = some d := by
  refine ⟨by decide, ?_, floatOfString?_padPrice⟩
  intro s hs
  unfold padPrice
  rw [hs]
  rfl

/-- C7 witness: the amended theorem applied at concrete price strings
7.5 (no .0 suffix, unchanged) and 7.0 (padded, value preserved). -/
theorem pad_prices_amended_witness :
    padPrice "7.5" = "7.5"
    ∧ floatOfString? (padPrice "7.0") = some ⟨false, 7, []⟩ :=
  ⟨pad_prices_amended.2.1 "7.5" rfl,
   pad_prices_amended.2.2 "7.0" ⟨false, 7, []⟩ rfl⟩
